import Mathlib

/-!
Shallow embedding of the PDF-to-Audiobook converter (`pdf to audio/main.py`):
a text extractor with whitespace normalization, a gTTS-backed speech
synthesizer wrapper, and the module-level Streamlit pipeline.
-/

set_option linter.unusedVariables false

namespace PdfAudio

/-! ### Python string primitives used by the cleaning step -/

/-- The whitespace characters recognised by Python's `str.strip()` / `str.split()`
(restricted to the ASCII whitespace set). -/
def isPyWhitespace (c : Char) : Bool :=
  c == ' ' || c == '\t' || c == '\n' || c == '\r' || c == '\x0b' || c == '\x0c'

/-- Python `s.replace(old, new)` for single characters, as a map over the chars. -/
def replaceChar (old new : Char) (s : List Char) : List Char :=
  s.map (fun c => if c == old then new else c)

/-- Python `s.strip()`: drop leading and trailing whitespace. -/
def pyStrip (s : List Char) : List Char :=
  ((s.dropWhile isPyWhitespace).reverse.dropWhile isPyWhitespace).reverse

/-- Worker for `pySplit`: `acc` holds the current word, reversed. -/
def pySplitAux : List Char → List Char → List (List Char)
  | [], acc => if acc.isEmpty then [] else [acc.reverse]
  | c :: cs, acc =>
    if isPyWhitespace c then
      if acc.isEmpty then pySplitAux cs [] else acc.reverse :: pySplitAux cs []
    else
      pySplitAux cs (c :: acc)

/-- Python `s.split()` with no argument: split on whitespace runs, dropping
empty fields. -/
def pySplit (s : List Char) : List (List Char) := pySplitAux s []

/-- Python `" ".join(words)`. -/
def joinWords : List (List Char) → List Char
  | [] => []
  | [w] => w
  | w :: ws => w ++ ' ' :: joinWords ws

/-- The cleaning step of `extract_text_from_pdf` (main.py lines 36-37):
`text.replace('\n', ' ').replace('\r', ' ').strip()` followed by
`" ".join(cleaned_text.split())`. -/
def clean_chars (s : List Char) : List Char :=
  joinWords (pySplit (pyStrip (replaceChar '\r' ' ' (replaceChar '\n' ' ' s))))

/-- `clean_chars` lifted to `String`. -/
def cleanString (s : String) : String := String.mk (clean_chars s.data)

/-! ### The PDF document model and the extractor -/

/-- A PDF as seen through `fitz.open`: either it parses into an ordered list of
per-page texts (`page.get_text()` for page 0, 1, ...), or opening raises with
some message. -/
inductive PdfDoc where
  | parsed (pages : List String)
  | invalid (errMsg : String)
  deriving DecidableEq

/-- Observable outcome of `extract_text_from_pdf`: the returned text, or `None`
together with which `st.error` message was shown. -/
inductive ExtractResult where
  | text (t : String)
  | noReadableText
  | processingError (errorShown : String)
  deriving DecidableEq

/-- The page loop of `extract_text_from_pdf` (main.py lines 28-33):
`text = ""` then `for page_num in range(len(doc)): text += page.get_text() + " "`. -/
def pages_concat (pages : List String) : String :=
  (List.range pages.length).foldl (fun acc i => acc ++ pages.getD i "" ++ " ") ""

/-- `extract_text_from_pdf` (main.py lines 16-47): open the document, concatenate
page texts, clean; empty cleaned text reports "no readable text", a parse
exception reports the underlying message. -/
def extract_text_from_pdf (d : PdfDoc) : ExtractResult :=
  match d with
  | PdfDoc.invalid e =>
      ExtractResult.processingError ("An error occurred during PDF processing: " ++ e)
  | PdfDoc.parsed pages =>
      let cleaned := cleanString (pages_concat pages)
      if cleaned = "" then ExtractResult.noReadableText
      else ExtractResult.text cleaned

/-! ### The speech synthesizer -/

/-- An in-memory MP3 buffer (`BytesIO`): its byte contents and current read
position. -/
structure MP3Buffer where
  data : List Nat
  pos : Nat
  deriving DecidableEq

/-- `is_slow = speed_rate < 1.0` (main.py line 58). -/
def is_slow_of (speed_rate : ℚ) : Bool := decide (speed_rate < 1)

/-- `convert_text_to_mp3` (main.py lines 49-72), parameterized by the external
text-to-speech service (`gTTS(...).write_to_fp`): compute the slow flag from
`speed_rate`, call the service, buffer the bytes, `seek(0)`, return; a raised
error is reported and yields `None`. The `pitch` argument is accepted but never
read. -/
def convert_text_to_mp3 (tts_service : String → Bool → Except String (List Nat))
    (text : String) (speed_rate : ℚ) (pitch : ℚ) : Option MP3Buffer :=
  let is_slow := is_slow_of speed_rate
  match tts_service text is_slow with
  | Except.ok bs => some { data := bs, pos := 0 }
  | Except.error _ => none

/-- Modelled from the spec: the fixed byte pattern identifying a buffer as
MP3-encoded audio (an MPEG audio frame sync header). -/
def mp3Signature : List Nat := [0xFF, 0xFB]

/-- Modelled from the spec: the external gTTS text-to-speech service, which is
third-party code not present in this repository's sources. Per the spec
(section 4.2 and section 8), for any non-empty text it produces a complete MP3
byte buffer whose first bytes match the MP3 container signature, in a single
fixed locale, with speed controlled by the `slow` flag; on empty text it fails. -/
def gtts_model (text : String) (slow : Bool) : Except String (List Nat) :=
  if text = "" then Except.error "No text to speak"
  else Except.ok (mp3Signature ++ (if slow then [1] else [0]) ++ text.data.map Char.toNat)

/-! ### The presentation layer (module-level Streamlit script) -/

/-- `speed_rate = 0.5 if speed_option == "Slow (0.5x)" else 1.0` (main.py line 108). -/
def speed_rate_of (speed_option : String) : ℚ :=
  if speed_option = "Slow (0.5x)" then 0.5 else 1.0

/-- The extracted-text preview (main.py line 137):
`pdf_text[:1000] + "..." if len(pdf_text) > 1000 else pdf_text`. -/
def preview_of (t : String) : String :=
  if t.length > 1000 then String.mk (t.data.take 1000) ++ "..." else t

/-- Worker for `pyRfind`: scan left to right keeping the latest index of the
target character; `-1` when absent. -/
def pyRfindAux (target : Char) : List Char → Int → Int → Int
  | [], _, best => best
  | c :: cs, i, best => pyRfindAux target cs (i + 1) (if c == target then i else best)

/-- Python `s.rfind(ch)`: index of the last occurrence, `-1` when absent. -/
def pyRfind (target : Char) (s : List Char) : Int := pyRfindAux target s 0 (-1)

/-- `os.path.splitext` (Python standard library, posix semantics, modelled here
since it is external to the repository): split off the extension at the last
dot of the final path component, except that a basename consisting only of
leading dots before that dot has no extension. -/
def splitext (p : String) : String × String :=
  let cs := p.data
  let sepIndex := pyRfind '/' cs
  let dotIndex := pyRfind '.' cs
  if sepIndex < dotIndex then
    let hasStem := (List.range cs.length).any
      (fun i => decide (sepIndex < (i : Int)) && decide ((i : Int) < dotIndex)
        && !(cs.getD i ' ' == '.'))
    if hasStem then (String.mk (cs.take dotIndex.toNat), String.mk (cs.drop dotIndex.toNat))
    else (p, "")
  else (p, "")

/-- The observable outcome of one top-to-bottom run of the script. -/
inductive RunOutcome where
  | awaitingUpload
  | extractionFailed (errorShown : String)
  | synthesisFailed (preview : String)
  | completed (preview : String) (audio : MP3Buffer) (downloadName : String) (mimeType : String)
  deriving DecidableEq

/-- The module-level main logic (main.py lines 126-162): extraction, preview,
synthesis, playback/download. The second component records whether
`convert_text_to_mp3` was invoked during the run. -/
def run_pipeline (tts_service : String → Bool → Except String (List Nat))
    (upload : Option (String × PdfDoc)) (speed_option : String) (pitch : ℚ) :
    RunOutcome × Bool :=
  match upload with
  | none => (RunOutcome.awaitingUpload, false)
  | some (name, doc) =>
    match extract_text_from_pdf doc with
    | ExtractResult.noReadableText =>
        (RunOutcome.extractionFailed "Error: Could not extract any readable text from the PDF.",
          false)
    | ExtractResult.processingError msg => (RunOutcome.extractionFailed msg, false)
    | ExtractResult.text t =>
        match convert_text_to_mp3 tts_service t (speed_rate_of speed_option) pitch with
        | none => (RunOutcome.synthesisFailed (preview_of t), true)
        | some buf =>
            (RunOutcome.completed (preview_of t) buf
              ((splitext name).1 ++ "_audiobook.mp3") "audio/mp3", true)

/-- Boolean formalization of "contains no two consecutive space characters". -/
def noDoubleSpace : List Char → Bool
  | c1 :: c2 :: rest => !(c1 == ' ' && c2 == ' ') && noDoubleSpace (c2 :: rest)
  | _ => true

/-- The invariant produced by `pySplit`: every word is non-empty and free of
whitespace characters. -/
def goodWords (l : List (List Char)) : Prop :=
  ∀ w ∈ l, w ≠ [] ∧ ∀ c ∈ w, isPyWhitespace c = false

/-- Written from the spec's words for claim C6: the ordered concatenation of the
per-page texts, each followed by a single separating space. -/
def joinPagesSpec : List String → String
  | [] => ""
  | p :: ps => p ++ " " ++ joinPagesSpec ps


/-! ### Helper lemmas -/

lemma noDoubleSpace_iff_chain (l : List Char) :
    noDoubleSpace l = true ↔ List.Chain' (fun a b => ¬(a = ' ' ∧ b = ' ')) l := by
  induction l with
  | nil => simp [noDoubleSpace]
  | cons c tail IH =>
    cases tail with
    | nil => simp [noDoubleSpace]
    | cons d rest =>
      rw [List.chain'_cons, ← IH]
      simp [noDoubleSpace, not_and_or, Decidable.imp_iff_not_or]

lemma is_slow_of_one : is_slow_of 1 = false := by
  simp [is_slow_of]

lemma speed_rate_of_normal : speed_rate_of "Normal (1.0x)" = 1 := by
  rw [speed_rate_of, if_neg (by decide)]
  norm_num

lemma speed_rate_of_slow : speed_rate_of "Slow (0.5x)" = 1/2 := by
  rw [speed_rate_of, if_pos rfl]
  norm_num

lemma is_slow_of_half : is_slow_of (1/2) = true := by
  simp [is_slow_of]
  norm_num

lemma pages_foldl_acc (ps : List String) : ∀ acc : String,
    (List.range ps.length).foldl (fun a i => a ++ ps.getD i "" ++ " ") acc
      = acc ++ joinPagesSpec ps := by
  induction ps with
  | nil => intro acc; simp [joinPagesSpec]
  | cons p ps IH =>
    intro acc
    rw [List.length_cons, List.range_succ_eq_map, List.foldl_cons, List.foldl_map]
    simp only [List.getD_cons_zero, List.getD_cons_succ]
    rw [IH]
    simp [joinPagesSpec, String.append_assoc]

lemma mem_rev_concat {α : Type} {c a : α} {as : List α}
    (h : c ∈ as.reverse ++ [a]) : c ∈ a :: as := by
  rcases List.mem_append.mp h with h1 | h1
  · exact List.mem_cons_of_mem _ (List.mem_reverse.mp h1)
  · simp at h1
    simp [h1]

lemma pySplitAux_good : ∀ (s acc : List Char),
    (∀ c ∈ acc, isPyWhitespace c = false) →
    ∀ w ∈ pySplitAux s acc, w ≠ [] ∧ ∀ c ∈ w, isPyWhitespace c = false := by
  intro s
  induction s with
  | nil =>
    intro acc hacc w hw
    cases acc with
    | nil => simp [pySplitAux] at hw
    | cons a as =>
      simp [pySplitAux] at hw
      subst hw
      refine ⟨by simp, ?_⟩
      intro c hc
      exact hacc c (mem_rev_concat hc)
  | cons c cs IH =>
    intro acc hacc w hw
    cases hws : isPyWhitespace c with
    | true =>
      cases acc with
      | nil =>
        simp only [pySplitAux, hws, List.isEmpty_nil, if_true] at hw
        exact IH [] (by simp) w hw
      | cons a as =>
        simp only [pySplitAux, hws, List.isEmpty_cons, if_true] at hw
        rcases List.mem_cons.mp hw with h | h
        · subst h
          refine ⟨by simp, ?_⟩
          intro x hx
          exact hacc x (List.mem_reverse.mp hx)
        · exact IH [] (by simp) w h
    | false =>
      simp only [pySplitAux, hws] at hw
      refine IH (c :: acc) ?_ w hw
      intro x hx
      rcases List.mem_cons.mp hx with h | h
      · subst h; exact hws
      · exact hacc x h

lemma pySplit_good (s : List Char) :
    ∀ w ∈ pySplit s, w ≠ [] ∧ ∀ c ∈ w, isPyWhitespace c = false :=
  pySplitAux_good s [] (by simp)

lemma goodWords_pySplit (s : List Char) : goodWords (pySplit s) := pySplit_good s

lemma joinWords_cons_cons (w w2 : List Char) (ws : List (List Char)) :
    joinWords (w :: w2 :: ws) = w ++ ' ' :: joinWords (w2 :: ws) := rfl

lemma goodWords_tail {w : List Char} {ws : List (List Char)}
    (hg : goodWords (w :: ws)) : goodWords ws :=
  fun u hu => hg u (List.mem_cons_of_mem _ hu)

lemma joinWords_ne_nil : ∀ (l : List (List Char)), goodWords l → l ≠ [] → joinWords l ≠ []
  | [], _, h => absurd rfl h
  | [w], hg, _ => by simpa [joinWords] using (hg w (by simp)).1
  | w :: w2 :: ws, _, _ => by
    rw [joinWords_cons_cons]
    simp

lemma joinWords_head : ∀ (l : List (List Char)), goodWords l →
    ((joinWords l).head?.all fun c => !isPyWhitespace c) = true
  | [], _ => by simp [joinWords]
  | [w], hg => by
    have hw := hg w (by simp)
    cases w with
    | nil => exact absurd rfl hw.1
    | cons c r =>
      simp [joinWords]
      exact hw.2 c (by simp)
  | w :: w2 :: ws, hg => by
    have hw := hg w (by simp)
    cases w with
    | nil => exact absurd rfl hw.1
    | cons c r =>
      rw [joinWords_cons_cons]
      simp
      exact hw.2 c (by simp)

lemma joinWords_getLast : ∀ (l : List (List Char)), goodWords l →
    ((joinWords l).getLast?.all fun c => !isPyWhitespace c) = true
  | [], _ => by simp [joinWords]
  | [w], hg => by
    have hw := hg w (by simp)
    cases hr : w.reverse with
    | nil => exact absurd (by simpa using hr) hw.1
    | cons c r =>
      have : w.getLast? = some c := by
        rw [← List.head?_reverse, hr]
        rfl
      rw [joinWords, this]
      simp
      refine hw.2 c ?_
      rw [← List.mem_reverse, hr]
      simp
  | w :: w2 :: ws, hg => by
    have hJ : joinWords (w2 :: ws) ≠ [] :=
      joinWords_ne_nil (w2 :: ws) (goodWords_tail hg) (by simp)
    have hrec := joinWords_getLast (w2 :: ws) (goodWords_tail hg)
    rw [joinWords_cons_cons, List.getLast?_append]
    cases hJ' : joinWords (w2 :: ws) with
    | nil => exact absurd hJ' hJ
    | cons j J =>
      rw [hJ'] at hrec
      rw [List.getLast?_cons_cons]
      cases hx : (j :: J).getLast? with
      | none => simp [List.getLast?_eq_none_iff] at hx
      | some x =>
        rw [hx] at hrec
        simpa using hrec

lemma chain_of_no_space : ∀ (m : List Char), (∀ c ∈ m, ¬ c = ' ') →
    List.Chain' (fun a b => ¬(a = ' ' ∧ b = ' ')) m
  | [], _ => List.chain'_nil
  | c :: r, h => by
    refine List.Chain'.cons' (chain_of_no_space r ?_) ?_
    · intro x hx
      exact h x (List.mem_cons_of_mem _ hx)
    · intro y _
      intro hcy
      exact h c (by simp) hcy.1

lemma joinWords_chain : ∀ (l : List (List Char)), goodWords l →
    List.Chain' (fun a b => ¬(a = ' ' ∧ b = ' ')) (joinWords l)
  | [], _ => by simp [joinWords]
  | [w], hg => by
    rw [joinWords]
    refine chain_of_no_space w ?_
    intro c hc hsp
    have := (hg w (by simp)).2 c hc
    rw [hsp] at this
    simp [isPyWhitespace] at this
  | w :: w2 :: ws, hg => by
    have hw := hg w (by simp)
    have htail := goodWords_tail hg
    rw [joinWords_cons_cons]
    refine List.Chain'.append ?_ ?_ ?_
    · refine chain_of_no_space w ?_
      intro c hc hsp
      have := hw.2 c hc
      rw [hsp] at this
      simp [isPyWhitespace] at this
    · refine List.Chain'.cons' (joinWords_chain (w2 :: ws) htail) ?_
      intro y hy
      have hhead := joinWords_head (w2 :: ws) htail
      rw [Option.mem_def] at hy
      rw [hy] at hhead
      simp at hhead
      intro hc
      rw [hc.2] at hhead
      simp [isPyWhitespace] at hhead
    · intro x hx y _
      have hxw : x ∈ w := by
        rw [Option.mem_def] at hx
        exact List.mem_of_mem_getLast? hx
      intro hc
      have := hw.2 x hxw
      rw [hc.1] at this
      simp [isPyWhitespace] at this

lemma joinWords_mem : ∀ (l : List (List Char)), goodWords l →
    ∀ c ∈ joinWords l, c = ' ' ∨ isPyWhitespace c = false
  | [], _ => by simp [joinWords]
  | [w], hg => fun c hc => Or.inr ((hg w (by simp)).2 c hc)
  | w :: w2 :: ws, hg => by
    intro c hc
    rw [joinWords_cons_cons] at hc
    rcases List.mem_append.mp hc with h | h
    · exact Or.inr ((hg w (by simp)).2 c h)
    · rcases List.mem_cons.mp h with h | h
      · exact Or.inl h
      · exact joinWords_mem (w2 :: ws) (goodWords_tail hg) c h

lemma dropWhile_eq_self_of_head (p : Char → Bool) :
    ∀ (l : List Char), (l.head?.all fun c => !p c) = true → l.dropWhile p = l
  | [], _ => rfl
  | c :: r, h => by
    simp at h
    simp [List.dropWhile_cons, h]

lemma pyStrip_joinWords (l : List (List Char)) (hg : goodWords l) :
    pyStrip (joinWords l) = joinWords l := by
  rw [pyStrip, dropWhile_eq_self_of_head _ _ (joinWords_head l hg),
    dropWhile_eq_self_of_head, List.reverse_reverse]
  rw [List.head?_reverse]
  exact joinWords_getLast l hg

lemma pySplitAux_word : ∀ (w : List Char), (∀ c ∈ w, isPyWhitespace c = false) →
    ∀ (s acc : List Char), pySplitAux (w ++ s) acc = pySplitAux s (w.reverse ++ acc)
  | [], _ => by intro s acc; simp
  | c :: w', h => by
    intro s acc
    have hc : isPyWhitespace c = false := h c (by simp)
    rw [List.cons_append, pySplitAux, hc]
    simp only [Bool.false_eq_true, if_false]
    rw [pySplitAux_word w' (fun x hx => h x (List.mem_cons_of_mem _ hx)) s (c :: acc)]
    simp [List.append_assoc]

lemma pySplitAux_wordOnly (w : List Char)
    (h : ∀ c ∈ w, isPyWhitespace c = false) (acc : List Char) :
    pySplitAux w acc = pySplitAux [] (w.reverse ++ acc) := by
  have := pySplitAux_word w h [] acc
  simpa using this

lemma pySplit_joinWords : ∀ (l : List (List Char)), goodWords l → pySplit (joinWords l) = l
  | [], _ => rfl
  | [w], hg => by
    have hw := hg w (by simp)
    rw [pySplit, joinWords, pySplitAux_wordOnly w hw.2 []]
    rw [pySplitAux]
    simp [List.isEmpty_iff, hw.1]
  | w :: w2 :: ws, hg => by
    have hw := hg w (by simp)
    have htail := goodWords_tail hg
    rw [pySplit, joinWords_cons_cons, pySplitAux_word w hw.2 (' ' :: joinWords (w2 :: ws)) []]
    rw [pySplitAux]
    have hsp : isPyWhitespace ' ' = true := rfl
    rw [hsp]
    have hrec : pySplitAux (joinWords (w2 :: ws)) [] = w2 :: ws :=
      pySplit_joinWords (w2 :: ws) htail
    simp [hrec, List.isEmpty_iff, hw.1]

lemma replaceChar_eq_self (a b : Char) : ∀ (l : List Char), a ∉ l → replaceChar a b l = l
  | [], _ => rfl
  | c :: r, h => by
    rw [replaceChar, List.map_cons]
    have hca : ¬ (c == a) = true := by
      simp only [List.mem_cons, not_or] at h
      simp [beq_iff_eq]
      intro hc
      exact h.1 hc.symm
    rw [if_neg hca]
    have : replaceChar a b r = r :=
      replaceChar_eq_self a b r (fun hr => h (List.mem_cons_of_mem _ hr))
    rw [replaceChar] at this
    rw [this]

lemma not_mem_joinWords {l : List (List Char)} (hg : goodWords l) {c : Char}
    (h1 : isPyWhitespace c = true) (h2 : ¬ c = ' ') : c ∉ joinWords l := by
  intro hmem
  rcases joinWords_mem l hg c hmem with h | h
  · exact h2 h
  · rw [h1] at h
    cases h

lemma clean_chars_not_mem {s : List Char} {c : Char}
    (h1 : isPyWhitespace c = true) (h2 : ¬ c = ' ') : c ∉ clean_chars s :=
  not_mem_joinWords (goodWords_pySplit _) h1 h2

lemma clean_chars_chain (s : List Char) :
    List.Chain' (fun a b => ¬(a = ' ' ∧ b = ' ')) (clean_chars s) :=
  joinWords_chain _ (goodWords_pySplit _)

lemma clean_chars_noDoubleSpace (s : List Char) : noDoubleSpace (clean_chars s) = true :=
  (noDoubleSpace_iff_chain _).mpr (clean_chars_chain s)

lemma clean_chars_strip (s : List Char) : pyStrip (clean_chars s) = clean_chars s :=
  pyStrip_joinWords _ (goodWords_pySplit _)

lemma clean_chars_idem (s : List Char) : clean_chars (clean_chars s) = clean_chars s := by
  have hg : goodWords (pySplit (pyStrip (replaceChar '\r' ' ' (replaceChar '\n' ' ' s)))) :=
    goodWords_pySplit _
  show clean_chars
      (joinWords (pySplit (pyStrip (replaceChar '\r' ' ' (replaceChar '\n' ' ' s)))))
    = joinWords (pySplit (pyStrip (replaceChar '\r' ' ' (replaceChar '\n' ' ' s))))
  rw [clean_chars]
  rw [replaceChar_eq_self '\n' ' ' _ (not_mem_joinWords hg rfl (by decide))]
  rw [replaceChar_eq_self '\r' ' ' _ (not_mem_joinWords hg rfl (by decide))]
  rw [pyStrip_joinWords _ hg, pySplit_joinWords _ hg]

lemma cleanString_data (s : String) : (cleanString s).data = clean_chars s.data := rfl

lemma extract_parsed (pages : List String) :
    extract_text_from_pdf (PdfDoc.parsed pages) =
      (if cleanString (pages_concat pages) = "" then ExtractResult.noReadableText
       else ExtractResult.text (cleanString (pages_concat pages))) := rfl

lemma extract_text_shape {d : PdfDoc} {t : String}
    (h : extract_text_from_pdf d = ExtractResult.text t) :
    ∃ s : String, t = cleanString s := by
  cases d with
  | invalid e => simp [extract_text_from_pdf] at h
  | parsed pages =>
    rw [extract_parsed] at h
    by_cases hc : cleanString (pages_concat pages) = ""
    · rw [if_pos hc] at h
      cases h
    · rw [if_neg hc] at h
      exact ⟨pages_concat pages, (ExtractResult.text.injEq _ _).mp h |>.symm⟩

/-! ### Claims -/

/-- C1: whenever the extractor succeeds and returns a text, that text contains
no newline and no carriage-return character, has no two consecutive spaces, and
has no leading or trailing whitespace (stripping it is the identity). -/
theorem c1_extractor_output_normalized (d : PdfDoc) (t : String)
    (h : extract_text_from_pdf d = ExtractResult.text t) :
    '\n' ∉ t.data ∧ '\r' ∉ t.data ∧ noDoubleSpace t.data = true ∧
      pyStrip t.data = t.data := by
  obtain ⟨s, rfl⟩ := extract_text_shape h
  exact ⟨clean_chars_not_mem (by decide) (by decide),
    clean_chars_not_mem (by decide) (by decide),
    clean_chars_noDoubleSpace _, clean_chars_strip _⟩

/-- Witness for C1 at a concrete one-page PDF containing a newline. -/
theorem c1_extractor_output_normalized_witness :
    '\n' ∉ "Hello world".data ∧ '\r' ∉ "Hello world".data ∧
      noDoubleSpace "Hello world".data = true ∧
      pyStrip "Hello world".data = "Hello world".data :=
  c1_extractor_output_normalized (PdfDoc.parsed ["Hello\nworld"]) "Hello world" (by decide)

/-- C2: with text and speed held fixed, the synthesizer's output does not
depend on the pitch value anywhere in [0.5, 1.5]: `convert_text_to_mp3` never
reads its `pitch` argument. -/
theorem c2_pitch_inert (tts_service : String → Bool → Except String (List Nat))
    (text : String) (speed_rate p1 p2 : ℚ)
    (h1 : (0.5 : ℚ) ≤ p1) (h2 : p1 ≤ 1.5) (h3 : (0.5 : ℚ) ≤ p2) (h4 : p2 ≤ 1.5) :
    convert_text_to_mp3 tts_service text speed_rate p1 =
      convert_text_to_mp3 tts_service text speed_rate p2 := rfl

/-- Witness for C2 at the two extreme pitch values. -/
theorem c2_pitch_inert_witness :
    ((0.5 : ℚ) ≤ 0.5 ∧ (0.5 : ℚ) ≤ 1.5 ∧ (1.5 : ℚ) ≤ 1.5) ∧
      convert_text_to_mp3 gtts_model "hi" 1 0.5 =
        convert_text_to_mp3 gtts_model "hi" 1 1.5 :=
  ⟨⟨le_refl _, by norm_num, le_refl _⟩,
    c2_pitch_inert gtts_model "hi" 1 0.5 1.5 (le_refl _) (by norm_num) (by norm_num)
      (le_refl _)⟩

/-- C3: "Slow (0.5x)" maps to speed_rate 0.5 and "Normal (1.0x)" to 1.0; the
slow flag is exactly `speed_rate < 1.0`, so "Slow" routes synthesis with
slow = true and "Normal" with slow = false, and the synthesis call receives
that flag. -/
theorem c3_speed_routing :
    speed_rate_of "Slow (0.5x)" = 1/2 ∧
    speed_rate_of "Normal (1.0x)" = 1 ∧
    is_slow_of (speed_rate_of "Slow (0.5x)") = true ∧
    is_slow_of (speed_rate_of "Normal (1.0x)") = false ∧
    (∀ r : ℚ, is_slow_of r = decide (r < 1)) ∧
    (∀ (tts_service : String → Bool → Except String (List Nat)) (text : String) (r p : ℚ),
      convert_text_to_mp3 tts_service text r p =
        match tts_service text (is_slow_of r) with
        | Except.ok bs => some { data := bs, pos := 0 }
        | Except.error _ => none) := by
  refine ⟨speed_rate_of_slow, speed_rate_of_normal, ?_, ?_, fun r => rfl,
    fun svc text r p => rfl⟩
  · rw [speed_rate_of_slow]
    exact is_slow_of_half
  · rw [speed_rate_of_normal]
    exact is_slow_of_one

/-- C10: the extractor's cleaning step is idempotent — re-normalizing any
already-normalized string is the identity. -/
theorem c10_clean_idempotent (s : String) :
    cleanString (cleanString s) = cleanString s :=
  congrArg String.mk (clean_chars_idem s.data)

/-- C4: the extractor yields no text in exactly two distinct cases — a parsed
document whose normalized text is empty (reported as "no readable text") and a
document that fails to open (reported with the underlying message) — and any
returned text is non-empty. -/
theorem c4_extractor_error_cases (d : PdfDoc) :
    (∀ t, extract_text_from_pdf d = ExtractResult.text t → t ≠ "") ∧
    (extract_text_from_pdf d = ExtractResult.noReadableText ↔
      ∃ pages, d = PdfDoc.parsed pages ∧ cleanString (pages_concat pages) = "") ∧
    (∀ m, extract_text_from_pdf d = ExtractResult.processingError m ↔
      ∃ e, d = PdfDoc.invalid e ∧
        m = "An error occurred during PDF processing: " ++ e) := by
  cases d with
  | invalid e =>
    refine ⟨?_, ?_, ?_⟩
    · intro t h
      simp [extract_text_from_pdf] at h
    · constructor
      · intro h
        simp [extract_text_from_pdf] at h
      · rintro ⟨pages, hp, _⟩
        cases hp
    · intro m
      constructor
      · intro h
        rw [extract_text_from_pdf] at h
        injection h with h
        exact ⟨e, rfl, h.symm⟩
      · rintro ⟨e2, he, hm⟩
        injection he with he
        subst he
        subst hm
        rfl
  | parsed pages =>
    by_cases hc : cleanString (pages_concat pages) = ""
    · refine ⟨?_, ?_, ?_⟩
      · intro t h
        rw [extract_parsed, if_pos hc] at h
        cases h
      · exact ⟨fun _ => ⟨pages, rfl, hc⟩, fun _ => by rw [extract_parsed, if_pos hc]⟩
      · intro m
        constructor
        · intro h
          rw [extract_parsed, if_pos hc] at h
          cases h
        · rintro ⟨e, he, _⟩
          cases he
    · refine ⟨?_, ?_, ?_⟩
      · intro t h
        rw [extract_parsed, if_neg hc] at h
        injection h with h
        subst h
        exact hc
      · constructor
        · intro h
          rw [extract_parsed, if_neg hc] at h
          cases h
        · rintro ⟨pages2, hp, hc2⟩
          injection hp with hp
          subst hp
          exact absurd hc2 hc
      · intro m
        constructor
        · intro h
          rw [extract_parsed, if_neg hc] at h
          cases h
        · rintro ⟨e, he, _⟩
          cases he

/-- Witness for C4: a PDF whose single page cleans to a non-empty text yields
that (non-empty) text. -/
theorem c4_extractor_error_cases_witness : ("a" : String) ≠ "" :=
  (c4_extractor_error_cases (PdfDoc.parsed ["a"])).1 "a" (by decide)

/-- C6: the pre-normalization text built by the page loop is the ordered
concatenation of the per-page texts, each followed by a separating space, and
the extractor normalizes exactly that concatenation. -/
theorem c6_pages_in_order (pages : List String) :
    pages_concat pages = joinPagesSpec pages ∧
    extract_text_from_pdf (PdfDoc.parsed pages) =
      (if cleanString (joinPagesSpec pages) = "" then ExtractResult.noReadableText
       else ExtractResult.text (cleanString (joinPagesSpec pages))) := by
  have h : pages_concat pages = joinPagesSpec pages := by
    rw [pages_concat, pages_foldl_acc pages "", String.empty_append]
  exact ⟨h, by rw [extract_parsed, h]⟩

lemma run_pipeline_success (tts_service : String → Bool → Except String (List Nat))
    (up : Option (String × PdfDoc)) (so : String) (p : ℚ) (name : String) (doc : PdfDoc)
    (t : String) (buf : MP3Buffer) (hup : up = some (name, doc))
    (hE : extract_text_from_pdf doc = ExtractResult.text t)
    (hC : convert_text_to_mp3 tts_service t (speed_rate_of so) p = some buf) :
    run_pipeline tts_service up so p =
      (RunOutcome.completed (preview_of t) buf ((splitext name).1 ++ "_audiobook.mp3")
        "audio/mp3", true) := by
  subst hup
  simp [run_pipeline, hE, hC]

/-- C5: a stage failure short-circuits the run — synthesis is attempted only
after a successful extraction, and a completed (playable/downloadable) outcome
occurs only when both extraction and synthesis succeeded. -/
theorem c5_pipeline_short_circuit (tts_service : String → Bool → Except String (List Nat))
    (upload : Option (String × PdfDoc)) (speed_option : String) (pitch : ℚ) :
    ((run_pipeline tts_service upload speed_option pitch).2 = true →
      ∃ name doc t, upload = some (name, doc) ∧
        extract_text_from_pdf doc = ExtractResult.text t) ∧
    (∀ pv a dn mm,
      (run_pipeline tts_service upload speed_option pitch).1 =
        RunOutcome.completed pv a dn mm →
      ∃ name doc t, upload = some (name, doc) ∧
        extract_text_from_pdf doc = ExtractResult.text t ∧
        convert_text_to_mp3 tts_service t (speed_rate_of speed_option) pitch = some a) := by
  cases upload with
  | none =>
    constructor
    · intro h
      simp [run_pipeline] at h
    · intro pv a dn mm h
      simp [run_pipeline] at h
  | some up =>
    obtain ⟨name, doc⟩ := up
    cases hE : extract_text_from_pdf doc with
    | noReadableText =>
      constructor
      · intro h
        simp [run_pipeline, hE] at h
      · intro pv a dn mm h
        simp [run_pipeline, hE] at h
    | processingError msg =>
      constructor
      · intro h
        simp [run_pipeline, hE] at h
      · intro pv a dn mm h
        simp [run_pipeline, hE] at h
    | text t =>
      cases hC : convert_text_to_mp3 tts_service t (speed_rate_of speed_option) pitch with
      | none =>
        constructor
        · intro _
          exact ⟨name, doc, t, rfl, hE⟩
        · intro pv a dn mm h
          simp [run_pipeline, hE, hC] at h
      | some buf =>
        constructor
        · intro _
          exact ⟨name, doc, t, rfl, hE⟩
        · intro pv a dn mm h
          simp [run_pipeline, hE, hC] at h
          obtain ⟨hpv, hbuf, hdn, hmm⟩ := h
          refine ⟨name, doc, t, rfl, hE, ?_⟩
          rw [hC, hbuf]

/-- Witness for C5 at a concrete successful end-to-end run. -/
theorem c5_pipeline_short_circuit_witness :
    ∃ name doc t, (some ("sample.pdf", PdfDoc.parsed ["hello"]) :
        Option (String × PdfDoc)) = some (name, doc) ∧
      extract_text_from_pdf doc = ExtractResult.text t ∧
      convert_text_to_mp3 gtts_model t (speed_rate_of "Normal (1.0x)") 1 =
        some { data := [255, 251, 0, 104, 101, 108, 108, 111], pos := 0 } := by
  have h1 : extract_text_from_pdf (PdfDoc.parsed ["hello"]) = ExtractResult.text "hello" := by
    decide
  have h2 : convert_text_to_mp3 gtts_model "hello" (speed_rate_of "Normal (1.0x)") 1 =
      some { data := [255, 251, 0, 104, 101, 108, 108, 111], pos := 0 } := by
    rw [speed_rate_of_normal]
    unfold convert_text_to_mp3
    rw [is_slow_of_one]
    decide
  have hrun := run_pipeline_success gtts_model (some ("sample.pdf", PdfDoc.parsed ["hello"]))
    "Normal (1.0x)" 1 "sample.pdf" (PdfDoc.parsed ["hello"]) "hello"
    { data := [255, 251, 0, 104, 101, 108, 108, 111], pos := 0 } rfl h1 h2
  exact (c5_pipeline_short_circuit gtts_model (some ("sample.pdf", PdfDoc.parsed ["hello"]))
      "Normal (1.0x)" 1).2 "hello" { data := [255, 251, 0, 104, 101, 108, 108, 111], pos := 0 }
    "sample_audiobook.mp3" "audio/mp3" (by rw [hrun]; decide)

/-- C7: against the spec-modelled gTTS service, any non-empty text and either
speed yields a buffer that is non-empty, starts with the MP3 signature, and is
positioned at offset 0. -/
theorem c7_synthesis_buffer (text : String) (speed_rate pitch : ℚ) (h : text ≠ "") :
    ∃ buf : MP3Buffer,
      convert_text_to_mp3 gtts_model text speed_rate pitch = some buf ∧
      buf.data ≠ [] ∧ (∃ rest, buf.data = mp3Signature ++ rest) ∧ buf.pos = 0 := by
  refine ⟨{ data := mp3Signature ++ (if is_slow_of speed_rate then [1] else [0]) ++
      text.data.map Char.toNat, pos := 0 }, ?_, ?_, ?_, rfl⟩
  · unfold convert_text_to_mp3 gtts_model
    simp [h]
  · simp [mp3Signature]
  · exact ⟨_, by rw [List.append_assoc]⟩

/-- Witness for C7 at a concrete text. -/
theorem c7_synthesis_buffer_witness :
    ("a" : String) ≠ "" ∧
    ∃ buf : MP3Buffer,
      convert_text_to_mp3 gtts_model "a" 1 1 = some buf ∧
      buf.data ≠ [] ∧ (∃ rest, buf.data = mp3Signature ++ rest) ∧ buf.pos = 0 :=
  ⟨by decide, c7_synthesis_buffer "a" 1 1 (by decide)⟩

/-- C8: a completed run offers the download under the uploaded name with its
extension stripped and "_audiobook.mp3" appended, MIME type audio/mp3; in
particular sample.pdf maps to sample_audiobook.mp3. -/
theorem c8_download_name (tts_service : String → Bool → Except String (List Nat))
    (name : String) (doc : PdfDoc) (speed_option : String) (pitch : ℚ)
    (pv : String) (a : MP3Buffer) (dn mm : String)
    (h : (run_pipeline tts_service (some (name, doc)) speed_option pitch).1 =
      RunOutcome.completed pv a dn mm) :
    dn = (splitext name).1 ++ "_audiobook.mp3" ∧ mm = "audio/mp3" ∧
    (splitext "sample.pdf").1 ++ "_audiobook.mp3" = "sample_audiobook.mp3" := by
  cases hE : extract_text_from_pdf doc with
  | noReadableText => simp [run_pipeline, hE] at h
  | processingError msg => simp [run_pipeline, hE] at h
  | text t =>
    cases hC : convert_text_to_mp3 tts_service t (speed_rate_of speed_option) pitch with
    | none => simp [run_pipeline, hE, hC] at h
    | some buf =>
      simp [run_pipeline, hE, hC] at h
      exact ⟨h.2.2.1.symm, h.2.2.2.symm, by decide⟩

/-- Witness for C8 at a concrete completed run for an upload named sample.pdf. -/
theorem c8_download_name_witness :
    ("sample_audiobook.mp3" : String) = (splitext "sample.pdf").1 ++ "_audiobook.mp3" ∧
    ("audio/mp3" : String) = "audio/mp3" ∧
    (splitext "sample.pdf").1 ++ "_audiobook.mp3" = "sample_audiobook.mp3" := by
  have h1 : extract_text_from_pdf (PdfDoc.parsed ["hello"]) = ExtractResult.text "hello" := by
    decide
  have h2 : convert_text_to_mp3 gtts_model "hello" (speed_rate_of "Normal (1.0x)") 1 =
      some { data := [255, 251, 0, 104, 101, 108, 108, 111], pos := 0 } := by
    rw [speed_rate_of_normal]
    unfold convert_text_to_mp3
    rw [is_slow_of_one]
    decide
  have hrun := run_pipeline_success gtts_model (some ("sample.pdf", PdfDoc.parsed ["hello"]))
    "Normal (1.0x)" 1 "sample.pdf" (PdfDoc.parsed ["hello"]) "hello"
    { data := [255, 251, 0, 104, 101, 108, 108, 111], pos := 0 } rfl h1 h2
  exact c8_download_name gtts_model "sample.pdf" (PdfDoc.parsed ["hello"]) "Normal (1.0x)" 1
    "hello" { data := [255, 251, 0, 104, 101, 108, 108, 111], pos := 0 }
    "sample_audiobook.mp3" "audio/mp3" (by rw [hrun]; decide)

/-- C9: after a successful extraction, the preview shown by the run (whether
synthesis then fails or completes) is the whole text when it has at most 1000
characters, and exactly the first 1000 characters followed by "..." otherwise. -/
theorem c9_preview_truncation (tts_service : String → Bool → Except String (List Nat))
    (name : String) (doc : PdfDoc) (speed_option : String) (pitch : ℚ) (t : String)
    (hE : extract_text_from_pdf doc = ExtractResult.text t) :
    (∀ pv, (run_pipeline tts_service (some (name, doc)) speed_option pitch).1 =
        RunOutcome.synthesisFailed pv →
      pv = (if 1000 < t.length then String.mk (t.data.take 1000) ++ "..." else t)) ∧
    (∀ pv a dn mm, (run_pipeline tts_service (some (name, doc)) speed_option pitch).1 =
        RunOutcome.completed pv a dn mm →
      pv = (if 1000 < t.length then String.mk (t.data.take 1000) ++ "..." else t)) := by
  cases hC : convert_text_to_mp3 tts_service t (speed_rate_of speed_option) pitch with
  | none =>
    constructor
    · intro pv h
      simp [run_pipeline, hE, hC] at h
      rw [← h]
      rfl
    · intro pv a dn mm h
      simp [run_pipeline, hE, hC] at h
  | some buf =>
    constructor
    · intro pv h
      simp [run_pipeline, hE, hC] at h
    · intro pv a dn mm h
      simp [run_pipeline, hE, hC] at h
      rw [← h.1]
      rfl

/-- Witness for C9 at a concrete completed run with a short text. -/
theorem c9_preview_truncation_witness :
    ("hello" : String) =
      (if 1000 < ("hello" : String).length
       then String.mk (("hello" : String).data.take 1000) ++ "..." else "hello") := by
  have h1 : extract_text_from_pdf (PdfDoc.parsed ["hello"]) = ExtractResult.text "hello" := by
    decide
  have h2 : convert_text_to_mp3 gtts_model "hello" (speed_rate_of "Normal (1.0x)") 1 =
      some { data := [255, 251, 0, 104, 101, 108, 108, 111], pos := 0 } := by
    rw [speed_rate_of_normal]
    unfold convert_text_to_mp3
    rw [is_slow_of_one]
    decide
  have hrun := run_pipeline_success gtts_model (some ("sample.pdf", PdfDoc.parsed ["hello"]))
    "Normal (1.0x)" 1 "sample.pdf" (PdfDoc.parsed ["hello"]) "hello"
    { data := [255, 251, 0, 104, 101, 108, 108, 111], pos := 0 } rfl h1 h2
  exact (c9_preview_truncation gtts_model "sample.pdf" (PdfDoc.parsed ["hello"])
      "Normal (1.0x)" 1 "hello" h1).2 "hello"
    { data := [255, 251, 0, 104, 101, 108, 108, 111], pos := 0 }
    "sample_audiobook.mp3" "audio/mp3" (by rw [hrun]; decide)

end PdfAudio
